import Mathlib

/-
Shallow embedding of the investment-analyzer backend (FII analysis system):
the cache manager and session manager (src/backend/database/cache_manager.py),
the data model (src/backend/models/fii_models.py), the ranking system
(src/backend/analysis/ranking.py) and the similarity search
(src/backend/analysis/embeddings.py).

Modelling conventions:
* `datetime.utcnow()` is passed explicitly as an integer timestamp (`Time`,
  seconds); `timedelta(seconds=t)` is addition.
* Database tables are lists of rows; SQLAlchemy `query(...).filter(...)` is
  `List.find?` / `List.filter`.  The `cache_key` / `session_id` columns carry a
  UNIQUE constraint in the schema, so updating / deleting "the" matching row is
  modelled as a map / filter over the key predicate.
* JSON scalar values are `Value` (null, number, string); Python floats are
  modelled as rationals, and the real-valued scores of `rank_comprehensive`
  (which use `math.log10`) live in `ℝ`.
* Python truthiness (`if metrics:`, `x or y`) is modelled explicitly
  (`Value.isTruthy`, `pyOr`, `dictTruthy`, `strTruthy`).
-/

namespace InvestmentAnalyzer

/-- Timestamps in seconds (`datetime.utcnow()` values). -/
abbrev Time := Int

/-- JSON scalar values stored in the `financial_metrics` / `market_data` JSON
columns and in cache payloads. -/
inductive Value where
  | null : Value
  | num : ℚ → Value
  | str : String → Value
deriving DecidableEq

/-- Python truthiness of a JSON scalar: `None`, `0` and `""` are falsy. -/
def Value.isTruthy : Value → Bool
  | .null => false
  | .num q => q != 0
  | .str s => s != ""

/-- A JSON object (Python dict with string keys). -/
abbrev Dict := List (String × Value)

/-- Python `d.get(k)`: first binding of `k`, `None` when absent. -/
def dictGet (d : Dict) (k : String) : Option Value :=
  (d.find? (fun p => p.1 == k)).map (·.2)

/-- Python `d.get(k)` lifted to an optional dict column (`None` column gives `None`). -/
def dictGetOpt (d : Option Dict) (k : String) : Option Value :=
  match d with
  | none => none
  | some d => dictGet d k

/-- Python `a or b` on optional JSON values: `a` when truthy, else `b`. -/
def pyOr (a b : Option Value) : Option Value :=
  match a with
  | none => b
  | some v => if v.isTruthy then some v else b

/-- Truthiness of an optional dict column: `None` and `{}` are falsy. -/
def dictTruthy : Option Dict → Bool
  | none => false
  | some d => !d.isEmpty

/-- Truthiness of an optional string column: `None` and `""` are falsy. -/
def strTruthy : Option String → Bool
  | none => false
  | some s => s != ""

/-- Value of a digit string (most significant first). -/
def digitsToNat (cs : List Char) : Nat :=
  cs.foldl (fun n c => 10 * n + (c.toNat - 48)) 0

/-- One step of Python `s.replace(pat, rep)` with explicit fuel (the fuel always
starts at the length of the list, so it never runs out; it only makes the
recursion structural). -/
def replaceSeg (pat rep : List Char) : Nat → List Char → List Char
  | 0, l => l
  | _ + 1, [] => []
  | n + 1, c :: cs =>
      if pat ≠ [] ∧ pat.isPrefixOf (c :: cs) then
        rep ++ replaceSeg pat rep n ((c :: cs).drop pat.length)
      else
        c :: replaceSeg pat rep n cs

/-- Python `s.replace(pat, rep)`: all non-overlapping occurrences, left to
right (`pat` is never empty where this is used). -/
def replaceList (pat rep l : List Char) : List Char :=
  replaceSeg pat rep l.length l

/-- Python `s.strip()`: drop whitespace at both ends. -/
def stripChars (l : List Char) : List Char :=
  ((l.dropWhile Char.isWhitespace).reverse.dropWhile Char.isWhitespace).reverse

/-- Split a character list at every character satisfying `p` (separators are
dropped, empty segments kept), as Python `re`-free scanning does. -/
def splitOnPred (p : Char → Bool) : List Char → List (List Char)
  | [] => [[]]
  | c :: cs =>
      let r := splitOnPred p cs
      if p c then [] :: r
      else
        match r with
        | [] => [[c]]
        | h :: t => (c :: h) :: t

/-- Unsigned decimal mantissa: digits with at most one point, as accepted by
Python `float()` (`"7"`, `"1.5"`, `"1."`, `".5"`; not `""` or `"."`). -/
def parseUnsignedL (l : List Char) : Option ℚ :=
  match splitOnPred (· == '.') l with
  | [i] =>
      if !i.isEmpty && i.all Char.isDigit then
        some (digitsToNat i : ℚ)
      else none
  | [i, f] =>
      if i.all Char.isDigit && f.all Char.isDigit && !(i.isEmpty && f.isEmpty) then
        some ((digitsToNat i : ℚ) + (digitsToNat f : ℚ) / (10 : ℚ) ^ f.length)
      else none
  | _ => none

/-- Ten to an integer power, as a rational (`10.0 ** z`). -/
def pow10 : Int → ℚ
  | .ofNat n => (10 : ℚ) ^ n
  | .negSucc n => 1 / (10 : ℚ) ^ (n + 1)

/-- Signed decimal exponent. -/
def parseExponentL (l : List Char) : Option Int :=
  let (sgn, b) : Int × List Char :=
    match l with
    | '-' :: cs => (-1, cs)
    | '+' :: cs => (1, cs)
    | cs => (1, cs)
  if !b.isEmpty && b.all Char.isDigit then
    some (sgn * (digitsToNat b : Int))
  else none

/-- Python `float(s)` on finite decimal literals: optional sign, decimal
mantissa, optional decimal exponent.  (The special forms `inf` / `nan` and
digit-group underscores, which `float()` also accepts, are not representable
as rationals and play no role in any claim; they are left out.) -/
def parseFloatL (l : List Char) : Option ℚ :=
  let (sgn, body) : ℚ × List Char :=
    match l with
    | '-' :: cs => (-1, cs)
    | '+' :: cs => (1, cs)
    | cs => (1, cs)
  match splitOnPred (fun c => c == 'e' || c == 'E') body with
  | [m] => (parseUnsignedL m).map (sgn * ·)
  | [m, e] =>
      match parseUnsignedL m, parseExponentL e with
      | some q, some z => some (sgn * q * pow10 z)
      | _, _ => none
  | _ => none

/-- The string cleaning performed by `FIIRankingSystem._extract_numeric_value`:
`value.replace("%", "").replace(",", ".").replace("R$", "").strip()`. -/
def cleanNumeric (l : List Char) : List Char :=
  stripChars (replaceList ['R', '$'] [] (replaceList [','] ['.'] (replaceList ['%'] [] l)))

/-- Model of `FIIRankingSystem._extract_numeric_value`: `None` stays `None`, numbers are
returned as floats, strings are cleaned and parsed, anything unparsable (for
example `"N/A"`) becomes `None`. -/
def extract_numeric_value : Option Value → Option ℚ
  | none => none
  | some .null => none
  | some (.num q) => some q
  | some (.str s) => parseFloatL (cleanNumeric s.toList)

/-! ## Cache key generation (`CacheManager._generate_cache_key`) -/

/-- Python's ordering on JSON scalars as they appear in sorted `(key, value)`
tuples.  With distinct dict keys the value component is never consulted, so any
total order on `Value` gives a faithful model; this one compares numbers and
strings by their own orders and separates the constructors. -/
def Value.le : Value → Value → Prop
  | .null, _ => True
  | .num _, .null => False
  | .num a, .num b => a ≤ b
  | .num _, .str _ => True
  | .str _, .null => False
  | .str _, .num _ => False
  | .str a, .str b => a ≤ b

instance Value.le.decRel : DecidableRel Value.le := fun v w => by
  cases v <;> cases w <;> simp only [Value.le] <;> infer_instance

/-- Lexicographic order on `(key, value)` pairs, as `sorted(kwargs.items())`
compares tuples. -/
def paramLe (x y : String × Value) : Prop :=
  x.1 < y.1 ∨ (x.1 = y.1 ∧ Value.le x.2 y.2)

instance paramLe.decRel : DecidableRel paramLe := fun x y => by
  unfold paramLe; infer_instance

theorem Value.leTotal (v w : Value) : Value.le v w ∨ Value.le w v := by
  cases v <;> cases w <;> simp only [Value.le] <;> first
    | exact Or.inl trivial
    | exact Or.inr trivial
    | exact le_total _ _

theorem Value.leTrans {u v w : Value} (h₁ : Value.le u v) (h₂ : Value.le v w) :
    Value.le u w := by
  cases u <;> cases v <;> cases w <;> simp only [Value.le] at * <;>
    first | trivial | exact h₁.trans h₂

theorem Value.leAntisymm {v w : Value} (h₁ : Value.le v w) (h₂ : Value.le w v) :
    v = w := by
  cases v <;> cases w <;> simp only [Value.le] at * <;>
    first | rfl | exact congrArg _ (h₁.antisymm h₂)

instance : IsTotal (String × Value) paramLe :=
  ⟨fun x y => by
    rcases lt_trichotomy x.1 y.1 with h | h | h
    · exact Or.inl (Or.inl h)
    · rcases Value.leTotal x.2 y.2 with hv | hv
      · exact Or.inl (Or.inr ⟨h, hv⟩)
      · exact Or.inr (Or.inr ⟨h.symm, hv⟩)
    · exact Or.inr (Or.inl h)⟩

instance : IsTrans (String × Value) paramLe :=
  ⟨fun x y z hxy hyz => by
    rcases hxy with h₁ | ⟨e₁, v₁⟩
    · rcases hyz with h₂ | ⟨e₂, _⟩
      · exact Or.inl (h₁.trans h₂)
      · exact Or.inl (e₂ ▸ h₁)
    · rcases hyz with h₂ | ⟨e₂, v₂⟩
      · exact Or.inl (e₁ ▸ h₂)
      · exact Or.inr ⟨e₁.trans e₂, Value.leTrans v₁ v₂⟩⟩

instance : IsAntisymm (String × Value) paramLe :=
  ⟨fun x y hxy hyx => by
    rcases hxy with h₁ | ⟨e₁, v₁⟩
    · rcases hyx with h₂ | ⟨e₂, _⟩
      · exact absurd (h₁.trans h₂) (lt_irrefl _)
      · exact absurd h₁ (e₂ ▸ lt_irrefl _)
    · rcases hyx with h₂ | ⟨_, v₂⟩
      · exact absurd h₂ (e₁ ▸ lt_irrefl _)
      · exact Prod.ext e₁ (Value.leAntisymm v₁ v₂)⟩

/-- Python `sorted(kwargs.items())`. -/
def sortParams (ps : List (String × Value)) : List (String × Value) :=
  List.insertionSort paramLe ps

/-- Rendering of one scalar inside `json.dumps` of the sorted parameter list.
(The exact float formatting is immaterial: every claim depends only on the key
being a fixed function of the canonical parameter list.) -/
def Value.render : Value → String
  | .null => "null"
  | .num q => toString q.num ++ "/" ++ toString q.den
  | .str s => "\"" ++ s ++ "\""

/-- Rendering of `json.dumps(sorted_params)`. -/
def renderParams (ps : List (String × Value)) : String :=
  "[" ++ String.intercalate ", "
    (ps.map (fun p => "[\"" ++ p.1 ++ "\", " ++ p.2.render ++ "]")) ++ "]"

/-- Model of `CacheManager._generate_cache_key`: the key is
`sha256(f"{cache_type}:{json.dumps(sorted(kwargs.items()))}")`.  The SHA-256
step is a fixed function of `key_data` and is modelled as the identity on it:
every claim about keys depends only on equal inputs producing equal keys. -/
def generate_cache_key (cache_type : String) (params : List (String × Value)) : String :=
  cache_type ++ ":" ++ renderParams (sortParams params)

/-! ## Cache entries (`CacheEntry` model and `CacheManager`) -/

/-- Row of the `cache_entry` table (`fii_models.CacheEntry`); `cache_key`
carries a UNIQUE constraint. -/
structure CacheEntry where
  cache_key : String
  cache_type : String
  data : Value
  ttl_seconds : Option Int
  access_count : Nat
  last_accessed : Option Time
  expires_at : Option Time
  created_at : Time
deriving DecidableEq

/-- Model of the `CacheEntry.is_expired` property: `False` when
`expires_at` is unset, else `datetime.utcnow() > expires_at`. -/
def CacheEntry.is_expired (e : CacheEntry) (now : Time) : Bool :=
  match e.expires_at with
  | none => false
  | some t => decide (t < now)

/-- Lookup `db.query(CacheEntry).filter(CacheEntry.cache_key == k).first()`. -/
def findByKey (store : List CacheEntry) (key : String) : Option CacheEntry :=
  store.find? (fun e => e.cache_key == key)

/-- Python `ttl or self.default_ttl`: `None` *and* `0` are falsy, so both fall
back to the default. -/
def pyOrTtl (ttl : Option Int) (default_ttl : Int) : Int :=
  match ttl with
  | none => default_ttl
  | some t => if t = 0 then default_ttl else t

/-- Model of `CacheManager.get`: returns the cached payload on a fresh hit (bumping
`access_count` and `last_accessed`), deletes the row and misses when the entry
is expired, misses leaving the store untouched when the key is absent. -/
def CacheManager.get (now : Time) (store : List CacheEntry) (cache_type : String)
    (params : List (String × Value)) : Option Value × List CacheEntry :=
  let cache_key := generate_cache_key cache_type params
  match findByKey store cache_key with
  | none => (none, store)
  | some e =>
      if e.is_expired now then
        (none, store.filter (fun x => !(x.cache_key == cache_key)))
      else
        (some e.data,
          store.map (fun x =>
            if x.cache_key == cache_key then
              { x with access_count := x.access_count + 1, last_accessed := some now }
            else x))

/-- Model of `CacheManager.set`: upsert with `expires_at = now + (ttl or default_ttl)`.
Returns the cache key and the new store. -/
def CacheManager.set (default_ttl : Int) (now : Time) (store : List CacheEntry)
    (cache_type : String) (data : Value) (ttl : Option Int)
    (params : List (String × Value)) : String × List CacheEntry :=
  let cache_key := generate_cache_key cache_type params
  let t := pyOrTtl ttl default_ttl
  let expires_at := now + t
  match findByKey store cache_key with
  | some _ =>
      (cache_key,
        store.map (fun e =>
          if e.cache_key == cache_key then
            { e with data := data, ttl_seconds := some t,
                     expires_at := some expires_at, last_accessed := some now }
          else e))
  | none =>
      (cache_key,
        store ++ [{ cache_key := cache_key, cache_type := cache_type, data := data,
                    ttl_seconds := some t, access_count := 0, last_accessed := none,
                    expires_at := some expires_at, created_at := now }])

/-- Model of `CacheManager.delete`: remove the entry for the derived key, reporting
whether one existed. -/
def CacheManager.delete (store : List CacheEntry) (cache_type : String)
    (params : List (String × Value)) : Bool × List CacheEntry :=
  let cache_key := generate_cache_key cache_type params
  match findByKey store cache_key with
  | some _ => (true, store.filter (fun x => !(x.cache_key == cache_key)))
  | none => (false, store)

/-- The SQL predicate of `cleanup_expired` (and of the `expired` counts in
`get_cache_stats`): `expires_at IS NOT NULL AND expires_at < now` — a `NULL`
`expires_at` never compares as expired. -/
def expiredPred (now : Time) (e : CacheEntry) : Bool :=
  match e.expires_at with
  | none => false
  | some t => decide (t < now)

/-- Model of `CacheManager.cleanup_expired`: delete every row matching `expiredPred`,
returning how many were removed. -/
def cleanup_expired (now : Time) (store : List CacheEntry) : Nat × List CacheEntry :=
  ((store.filter (expiredPred now)).length, store.filter (fun e => !expiredPred now e))

/-- The `expired` count of one cache type in `CacheManager.get_cache_stats`
(SQL `expires_at < now`, which is false on `NULL`). -/
def stats_expired_count (now : Time) (cache_type : String) (store : List CacheEntry) : Nat :=
  (store.filter (fun e => e.cache_type == cache_type)).countP (expiredPred now)

/-- The `active` count of one cache type in `CacheManager.get_cache_stats`:
`total - expired`. -/
def stats_active_count (now : Time) (cache_type : String) (store : List CacheEntry) : Nat :=
  (store.filter (fun e => e.cache_type == cache_type)).length
    - stats_expired_count now cache_type store

/-! ## User sessions (`UserSession` model and `SessionManager`) -/

/-- Row of the `user_session` table (`fii_models.UserSession`); `session_id`
carries a UNIQUE constraint. -/
structure UserSession where
  session_id : String
  user_agent : Option String
  ip_address : Option String
  total_analyses : Nat
  last_activity : Option Time
  created_at : Time
  expires_at : Option Time
deriving DecidableEq

/-- Lookup `db.query(UserSession).filter(UserSession.session_id == sid).first()`. -/
def findSession (store : List UserSession) (sid : String) : Option UserSession :=
  store.find? (fun s => s.session_id == sid)

/-- The expiry test of `SessionManager.get_session`:
`session_obj.expires_at and datetime.utcnow() > session_obj.expires_at`
(a `None` `expires_at` is never expired). -/
def sessionExpired (now : Time) (s : UserSession) : Bool :=
  match s.expires_at with
  | none => false
  | some t => decide (t < now)

/-- Model of `SessionManager.create_session`: upsert; both branches set
`expires_at = now + session_ttl`, the update branch also refreshes
`last_activity` and overwrites `user_agent` / `ip_address` when truthy. -/
def SessionManager.create_session (session_ttl : Int) (now : Time)
    (store : List UserSession) (sid : String) (user_agent ip_address : Option String) :
    List UserSession :=
  let expires_at := now + session_ttl
  match findSession store sid with
  | some _ =>
      store.map (fun s =>
        if s.session_id == sid then
          { s with last_activity := some now, expires_at := some expires_at,
                   user_agent := if strTruthy user_agent then user_agent else s.user_agent,
                   ip_address := if strTruthy ip_address then ip_address else s.ip_address }
        else s)
  | none =>
      store ++ [{ session_id := sid, user_agent := user_agent, ip_address := ip_address,
                  total_analyses := 0, last_activity := none, created_at := now,
                  expires_at := some (now + session_ttl) }]

/-- Model of `SessionManager.get_session`: miss when absent; an expired session is
deleted and treated as a miss; on success only `last_activity` is refreshed
(`expires_at` is left as it was) and the session data is returned. -/
def SessionManager.get_session (now : Time) (store : List UserSession) (sid : String) :
    Option UserSession × List UserSession :=
  match findSession store sid with
  | none => (none, store)
  | some s =>
      if sessionExpired now s then
        (none, store.filter (fun x => !(x.session_id == sid)))
      else
        (some { s with last_activity := some now },
          store.map (fun x =>
            if x.session_id == sid then { x with last_activity := some now } else x))

/-! ## FII analyses and the ranking system (`ranking.py`) -/

/-- The columns of `fii_models.FIIAnalysis` consumed by the ranking system and
the similarity search (`embedding_vector` is stored as a JSON-encoded vector;
it is modelled already decoded). -/
structure FIIAnalysis where
  id : Int
  session_id : String
  fii_code : String
  fii_name : Option String
  financial_metrics : Option Dict
  market_data : Option Dict
  risk_rating : Option String
  investment_recommendation : Option String
  embedding_vector : Option (List ℚ)
  embedding_model : Option String
deriving DecidableEq

/-- The dividend-yield extraction shared by `rank_by_dividend_yield` and
`rank_comprehensive`: metrics `dividend_yield` or `dy` (under Python `or`),
falling back to market `dividend_yield` when the first attempt gave `None`. -/
def getDividendYield (a : FIIAnalysis) : Option ℚ :=
  let dy : Option ℚ :=
    if dictTruthy a.financial_metrics then
      extract_numeric_value
        (pyOr (dictGetOpt a.financial_metrics "dividend_yield")
              (dictGetOpt a.financial_metrics "dy"))
    else none
  match dy with
  | some v => some v
  | none =>
      if dictTruthy a.market_data then
        extract_numeric_value (dictGetOpt a.market_data "dividend_yield")
      else none

/-- The P/VP extraction shared by `rank_by_pvp_ratio` and `rank_comprehensive`:
metrics `pvp_ratio` or `p_vp`, falling back to market `pvp_ratio`. -/
def getPvp (a : FIIAnalysis) : Option ℚ :=
  let pvp : Option ℚ :=
    if dictTruthy a.financial_metrics then
      extract_numeric_value
        (pyOr (dictGetOpt a.financial_metrics "pvp_ratio")
              (dictGetOpt a.financial_metrics "p_vp"))
    else none
  match pvp with
  | some v => some v
  | none =>
      if dictTruthy a.market_data then
        extract_numeric_value (dictGetOpt a.market_data "pvp_ratio")
      else none

/-- The liquidity extraction of `rank_comprehensive`: market `liquidity_score`
or `avg_volume` (under Python `or`). -/
def getLiquidity (a : FIIAnalysis) : Option ℚ :=
  if dictTruthy a.market_data then
    extract_numeric_value
      (pyOr (dictGetOpt a.market_data "liquidity_score")
            (dictGetOpt a.market_data "avg_volume"))
  else none

/-- Table `risk_scores = {"LOW": 1.0, "MEDIUM": 0.7, "HIGH": 0.3}` with default
`0.5`. -/
def risk_scores (s : String) : ℝ :=
  if s = "LOW" then 1 else if s = "MEDIUM" then 0.7 else if s = "HIGH" then 0.3 else 0.5

/-- Table `rec_scores = {"BUY": 1.0, "HOLD": 0.6, "SELL": 0.2}` with default `0.5`. -/
def rec_scores (s : String) : ℝ :=
  if s = "BUY" then 1 else if s = "HOLD" then 0.6 else if s = "SELL" then 0.2 else 0.5

/-- Dividend-yield component of `rank_comprehensive` as the pair
`(contribution to total_score, contribution to weight_sum)`: used only when a
value was extracted and is positive, scored `min(dy / 15, 1) * 0.3`. -/
noncomputable def dyComponent (a : FIIAnalysis) : ℝ × ℝ :=
  match getDividendYield a with
  | some dy => if 0 < dy then (min ((dy : ℝ) / 15) 1 * 0.3, 0.3) else (0, 0)
  | none => (0, 0)

/-- P/VP component of `rank_comprehensive`: used only when positive, scored
`max(0, (2.0 - pvp) / 1.5) * 0.25` — note there is no upper clamp. -/
noncomputable def pvpComponent (a : FIIAnalysis) : ℝ × ℝ :=
  match getPvp a with
  | some p => if 0 < p then (max 0 ((2 - (p : ℝ)) / 1.5) * 0.25, 0.25) else (0, 0)
  | none => (0, 0)

/-- Liquidity component of `rank_comprehensive`: used only when positive,
scored `min(log10(liquidity + 1) / 6, 1) * 0.2`. -/
noncomputable def liquidityComponent (a : FIIAnalysis) : ℝ × ℝ :=
  match getLiquidity a with
  | some l => if 0 < l then (min (Real.logb 10 ((l : ℝ) + 1) / 6) 1 * 0.2, 0.2) else (0, 0)
  | none => (0, 0)

/-- Risk-rating component of `rank_comprehensive`: used when the column is a
truthy string. -/
def riskComponent (a : FIIAnalysis) : ℝ × ℝ :=
  match a.risk_rating with
  | some s => if s ≠ "" then (risk_scores s * 0.15, 0.15) else (0, 0)
  | none => (0, 0)

/-- Recommendation component of `rank_comprehensive`: used when the column is
a truthy string. -/
def recComponent (a : FIIAnalysis) : ℝ × ℝ :=
  match a.investment_recommendation with
  | some s => if s ≠ "" then (rec_scores s * 0.1, 0.1) else (0, 0)
  | none => (0, 0)

/-- The `total_score` accumulated by `rank_comprehensive` for one record. -/
noncomputable def total_score (a : FIIAnalysis) : ℝ :=
  (dyComponent a).1 + (pvpComponent a).1 + (liquidityComponent a).1
    + (riskComponent a).1 + (recComponent a).1

/-- The `weight_sum` accumulated by `rank_comprehensive` for one record. -/
noncomputable def weight_sum (a : FIIAnalysis) : ℝ :=
  (dyComponent a).2 + (pvpComponent a).2 + (liquidityComponent a).2
    + (riskComponent a).2 + (recComponent a).2

/-- The `final_score = total_score / weight_sum` of `rank_comprehensive`
(before the `* 100` percentage presentation); `none` when no component was
usable (`weight_sum == 0`), in which case the record is skipped. -/
noncomputable def comprehensiveScore (a : FIIAnalysis) : Option ℝ :=
  if 0 < weight_sum a then some (total_score a / weight_sum a) else none

/-- The fields of one output entry of the single-criterion rankings that the
claims are about (`rank_position`, `analysis_id`, `fii_code`, `score`; the
name, description and metric-detail fields are presentation only). -/
structure RankEntry where
  rank_position : Nat
  analysis_id : Int
  fii_code : String
  score : ℚ
deriving DecidableEq

/-- Descending order on `(analysis, score)` pairs (`sort(key=..., reverse=True)`). -/
def descScore (x y : FIIAnalysis × ℚ) : Prop := y.2 ≤ x.2

instance descScore.decRel : DecidableRel descScore := fun x y =>
  inferInstanceAs (Decidable (y.2 ≤ x.2))

/-- Descending order on `(analysis, sort score, metric value)` triples. -/
def descScore3 (x y : FIIAnalysis × ℚ × ℚ) : Prop := y.2.1 ≤ x.2.1

instance descScore3.decRel : DecidableRel descScore3 := fun x y =>
  inferInstanceAs (Decidable (y.2.1 ≤ x.2.1))

/-- Model of `FIIRankingSystem.rank_by_dividend_yield`: analyses of the session with an
extractable dividend yield, sorted descending, truncated to `limit`, ranked
from position 1. -/
def rank_by_dividend_yield (sid : String) (analyses : List FIIAnalysis)
    (limit : Nat) : List RankEntry :=
  let sess := analyses.filter (fun a => a.session_id == sid)
  let ranked := sess.filterMap (fun a => (getDividendYield a).map (fun dy => (a, dy)))
  let sorted := List.insertionSort descScore ranked
  (sorted.take limit).enum.map (fun p =>
    { rank_position := p.1 + 1, analysis_id := p.2.1.id,
      fii_code := p.2.1.fii_code, score := p.2.2 })

/-- Model of `FIIRankingSystem.rank_by_pvp_ratio`: analyses of the session with an
extractable strictly positive P/VP, sorted by `1 / pvp` descending (lowest
P/VP first), truncated to `limit`; the reported `score` is the raw P/VP. -/
def rank_by_pvp_ratio (sid : String) (analyses : List FIIAnalysis)
    (limit : Nat) : List RankEntry :=
  let sess := analyses.filter (fun a => a.session_id == sid)
  let ranked := sess.filterMap (fun a =>
    match getPvp a with
    | some p => if 0 < p then some (a, 1 / p, p) else none
    | none => none)
  let sorted := List.insertionSort descScore3 ranked
  (sorted.take limit).enum.map (fun p =>
    { rank_position := p.1 + 1, analysis_id := p.2.1.id,
      fii_code := p.2.1.fii_code, score := p.2.2.2 })

/-- Row of the `fii_ranking` table (`fii_models.FIIRanking`), restricted to the
columns the claims are about. -/
structure FIIRankingRow where
  session_id : String
  ranking_type : String
  rank_position : Nat
  score : ℚ
  analysis_id : Int
deriving DecidableEq

/-- The row written by `save_ranking` for one ranking entry. -/
def toRankingRow (sid ranking_type : String) (e : RankEntry) : FIIRankingRow :=
  { session_id := sid, ranking_type := ranking_type, rank_position := e.rank_position,
    score := e.score, analysis_id := e.analysis_id }

/-- Membership of a row in the `(session_id, ranking_type)` group that
`save_ranking` replaces. -/
def inGroup (sid ranking_type : String) (r : FIIRankingRow) : Bool :=
  r.session_id == sid && r.ranking_type == ranking_type

/-- Model of `FIIRankingSystem.save_ranking`: delete every existing row of the
`(session_id, ranking_type)` group, then insert the new entries. -/
def save_ranking (sid ranking_type : String) (rankings : List RankEntry)
    (store : List FIIRankingRow) : List FIIRankingRow :=
  store.filter (fun r => !inGroup sid ranking_type r)
    ++ rankings.map (toRankingRow sid ranking_type)

/-- The `pvp_ratio` block of `FIIRankingSystem.generate_all_rankings`:
recompute, then save **only when the recomputed list is non-empty**
(`if pvp_rankings:`). -/
def generate_pvp_ranking_step (sid : String) (analyses : List FIIAnalysis)
    (store : List FIIRankingRow) : List FIIRankingRow :=
  let pvp_rankings := rank_by_pvp_ratio sid analyses 20
  if pvp_rankings.isEmpty then store
  else save_ranking sid "pvp_ratio" pvp_rankings store

/-! ## Similarity search (`FIIEmbeddingsManager.find_similar_fiis`) -/

/-- One element of the list returned by `find_similar_fiis` (the fields the
claims are about). -/
structure SimilarFII where
  analysis_id : Int
  fii_code : String
  similarity_score : ℚ
deriving DecidableEq

/-- Descending order on similarity results. -/
def descSim (x y : SimilarFII) : Prop := y.similarity_score ≤ x.similarity_score

instance descSim.decRel : DecidableRel descSim := fun x y =>
  inferInstanceAs (Decidable (y.similarity_score ≤ x.similarity_score))

/-- Model of `FIIEmbeddingsManager.find_similar_fiis`.  The cosine similarity is an
arbitrary function `sim` of the two stored vectors (the claims hold regardless
of its values).  Candidates are all other analyses with a stored embedding
produced by the manager's current `model_name`; results below `min_similarity`
are dropped, the rest are sorted descending and truncated to `limit`. -/
def find_similar_fiis (sim : List ℚ → List ℚ → ℚ) (model_name : String)
    (analyses : List FIIAnalysis) (target_id : Int) (limit : Nat)
    (min_similarity : ℚ) : List SimilarFII :=
  match analyses.find? (fun a => a.id == target_id) with
  | none => []
  | some target =>
      match target.embedding_vector with
      | none => []
      | some tv =>
          let others := analyses.filter (fun a =>
            a.id != target_id && a.embedding_vector.isSome
              && a.embedding_model == some model_name)
          let sims := (others.filterMap (fun a =>
            (a.embedding_vector).map (fun v =>
              ({ analysis_id := a.id, fii_code := a.fii_code,
                 similarity_score := sim tv v } : SimilarFII)))).filter
            (fun r => min_similarity ≤ r.similarity_score)
          (List.insertionSort descSim sims).take limit

/-! ## General helper lemmas -/

/-- The lookup `find?` commutes with a map that does not change the predicate's verdict
(such as a row update that keeps the key column). -/
theorem find_map_invariant {α : Type} (p : α → Bool) (g : α → α)
    (hg : ∀ x, p (g x) = p x) (l : List α) :
    (l.map g).find? p = (l.find? p).map g := by
  induction l with
  | nil => rfl
  | cons a t ih =>
      by_cases h : p a
      · rw [List.map_cons, List.find?_cons_of_pos _ (by rw [hg]; exact h),
            List.find?_cons_of_pos _ h, Option.map_some']
      · rw [List.map_cons, List.find?_cons_of_neg _ (by rw [hg]; exact h),
            List.find?_cons_of_neg _ h, ih]

/-- After a `set`, the row found under the derived key holds the new payload
and `expires_at = now + (ttl or default_ttl)`, in both the update and the
insert branch. -/
theorem findByKey_set (default_ttl : Int) (now : Time) (store : List CacheEntry)
    (ct : String) (data : Value) (ttl : Option Int) (params : List (String × Value)) :
    (findByKey (CacheManager.set default_ttl now store ct data ttl params).2
        (generate_cache_key ct params)).map (fun e => (e.data, e.expires_at))
      = some (data, some (now + pyOrTtl ttl default_ttl)) := by
  unfold CacheManager.set
  cases hf : findByKey store (generate_cache_key ct params) with
  | none =>
      unfold findByKey at hf ⊢
      simp only [hf, List.find?_append]
      simp [List.find?]
  | some e =>
      unfold findByKey at hf ⊢
      have hkey := List.find?_some hf
      simp only [hf]
      rw [find_map_invariant (fun x => x.cache_key == generate_cache_key ct params)
            _ (fun x => by by_cases hx : x.cache_key == generate_cache_key ct params <;>
              simp [hx]) store, hf]
      have hk2 : e.cache_key = generate_cache_key ct params := by simpa using hkey
      simp [hk2]

/-- Projection of `findByKey_set` onto `expires_at`. -/
theorem findByKey_set_expires (default_ttl : Int) (now : Time) (store : List CacheEntry)
    (ct : String) (data : Value) (ttl : Option Int) (params : List (String × Value)) :
    (findByKey (CacheManager.set default_ttl now store ct data ttl params).2
        (generate_cache_key ct params)).map (fun e => e.expires_at)
      = some (some (now + pyOrTtl ttl default_ttl)) := by
  have h := findByKey_set default_ttl now store ct data ttl params
  cases hf : findByKey (CacheManager.set default_ttl now store ct data ttl params).2
      (generate_cache_key ct params) with
  | none => rw [hf] at h; cases h
  | some e =>
      rw [hf] at h
      simp only [Option.map_some', Option.some.injEq, Prod.mk.injEq] at h
      simp [h.2]

/-! ## C5 — cache key determinism under parameter reordering -/

/-- C5: two parameter lists with the same entries (in any order) produce the
identical cache key, hence `get` / `set` / `delete` with reordered parameters
address the same cache entry. -/
theorem cache_key_param_order_irrelevant (ct : String) (ps ps' : List (String × Value))
    (h : ps.Perm ps') (default_ttl : Int) (now : Time) (store : List CacheEntry)
    (data : Value) (ttl : Option Int) :
    generate_cache_key ct ps = generate_cache_key ct ps' ∧
    CacheManager.get now store ct ps = CacheManager.get now store ct ps' ∧
    CacheManager.set default_ttl now store ct data ttl ps
      = CacheManager.set default_ttl now store ct data ttl ps' ∧
    CacheManager.delete store ct ps = CacheManager.delete store ct ps' := by
  have hs : sortParams ps = sortParams ps' :=
    List.eq_of_perm_of_sorted
      (((List.perm_insertionSort paramLe ps).trans h).trans
        (List.perm_insertionSort paramLe ps').symm)
      (List.sorted_insertionSort paramLe ps) (List.sorted_insertionSort paramLe ps')
  have hk : generate_cache_key ct ps = generate_cache_key ct ps' := by
    unfold generate_cache_key; rw [show sortParams ps = sortParams ps' from hs]
  refine ⟨hk, ?_, ?_, ?_⟩
  · unfold CacheManager.get; rw [hk]
  · unfold CacheManager.set; rw [hk]
  · unfold CacheManager.delete; rw [hk]

/-- Witness for C5 at a concrete two-entry parameter permutation. -/
theorem cache_key_param_order_irrelevant_witness :
    ([(("b" : String), Value.str "2"), ("a", Value.str "1")].Perm
      [(("a" : String), Value.str "1"), ("b", Value.str "2")]) ∧
    (generate_cache_key "market_data" [("b", Value.str "2"), ("a", Value.str "1")]
      = generate_cache_key "market_data" [("a", Value.str "1"), ("b", Value.str "2")] ∧
    CacheManager.get 0 [] "market_data" [("b", Value.str "2"), ("a", Value.str "1")]
      = CacheManager.get 0 [] "market_data" [("a", Value.str "1"), ("b", Value.str "2")] ∧
    CacheManager.set 3600 0 [] "market_data" (Value.str "d") none
        [("b", Value.str "2"), ("a", Value.str "1")]
      = CacheManager.set 3600 0 [] "market_data" (Value.str "d") none
        [("a", Value.str "1"), ("b", Value.str "2")] ∧
    CacheManager.delete [] "market_data" [("b", Value.str "2"), ("a", Value.str "1")]
      = CacheManager.delete [] "market_data" [("a", Value.str "1"), ("b", Value.str "2")]) :=
  ⟨List.Perm.swap _ _ _,
    cache_key_param_order_irrelevant "market_data" _ _ (List.Perm.swap _ _ _) 3600 0 []
      (Value.str "d") none⟩

/-! ## C3 — `set` with `ttl = 0` (corrected) -/

/-- C3 counterexample: `set(..., ttl=0)` does **not** store an entry expiring
at the write time — `ttl or self.default_ttl` treats `0` as falsy, so the
entry expires at `write time + default_ttl` and the very next `get` (and even
a later one) is a hit, not a miss. -/
theorem set_ttl_zero_not_immediately_expired_counterexample :
    ((CacheManager.set 3600 0 [] "market_data" (Value.str "payload") (some 0) []).2.map
        (fun e => e.expires_at)) = [some 3600] ∧
    (CacheManager.get 0
        (CacheManager.set 3600 0 [] "market_data" (Value.str "payload") (some 0) []).2
        "market_data" []).1 = some (Value.str "payload") ∧
    (CacheManager.get 1
        (CacheManager.set 3600 0 [] "market_data" (Value.str "payload") (some 0) []).2
        "market_data" []).1 = some (Value.str "payload") := by
  decide

/-- C3 (amended): a `set` with `ttl = 0` falls back to the default TTL
(`ttl or self.default_ttl` is falsy on `0`), so the stored entry carries
`expires_at = now + default_ttl` and, for a non-negative default, the next
`get` is a hit returning the payload. -/
theorem set_ttl_zero_uses_default (default_ttl : Int) (now : Time)
    (store : List CacheEntry) (ct : String) (data : Value)
    (params : List (String × Value)) (hd : 0 ≤ default_ttl) :
    (findByKey (CacheManager.set default_ttl now store ct data (some 0) params).2
        (generate_cache_key ct params)).map (fun e => e.expires_at)
      = some (some (now + default_ttl)) ∧
    (CacheManager.get now
        (CacheManager.set default_ttl now store ct data (some 0) params).2
        ct params).1 = some data := by
  have hp : pyOrTtl (some 0) default_ttl = default_ttl := by simp [pyOrTtl]
  have h := findByKey_set default_ttl now store ct data (some 0) params
  cases hf : findByKey (CacheManager.set default_ttl now store ct data (some 0) params).2
      (generate_cache_key ct params) with
  | none => rw [hf] at h; cases h
  | some e =>
      rw [hf] at h
      simp only [Option.map_some', Option.some.injEq, Prod.mk.injEq] at h
      have hexp : e.expires_at = some (now + default_ttl) := by rw [h.2, hp]
      have hlive : e.is_expired now = false := by
        have h0 : (0 : Int) ≤ pyOrTtl (some 0) default_ttl := le_of_le_of_eq hd hp.symm
        unfold CacheEntry.is_expired
        rw [h.2]
        simp only [decide_eq_false_iff_not, not_lt]
        exact le_add_of_nonneg_right h0
      constructor
      · simp [hf, hexp]
      · simp only [CacheManager.get, hf, hlive]
        simp [h.1]

/-- Witness for the amended C3 at `default_ttl = 3600`, `now = 0`. -/
theorem set_ttl_zero_uses_default_witness :
    ((0 : Int) ≤ 3600) ∧
    ((findByKey (CacheManager.set 3600 0 [] "market_data" (Value.str "payload") (some 0) []).2
        (generate_cache_key "market_data" [])).map (fun e => e.expires_at)
      = some (some (0 + 3600)) ∧
    (CacheManager.get 0
        (CacheManager.set 3600 0 [] "market_data" (Value.str "payload") (some 0) []).2
        "market_data" []).1 = some (Value.str "payload")) :=
  ⟨by decide,
    set_ttl_zero_uses_default 3600 0 [] "market_data" (Value.str "payload") [] (by decide)⟩

/-! ## C4 — monotonicity of `expires_at` across overwrites (corrected) -/

/-- C4 counterexample: overwriting a key with a smaller TTL strictly decreases
its `expires_at` (first `set` with `ttl = 100` gives `expires_at = 100`, an
immediate second `set` with `ttl = 1` gives `expires_at = 1`). -/
theorem set_expires_at_not_monotone_counterexample :
    ((CacheManager.set 3600 0 [] "t" (Value.str "a") (some 100) []).2.map
        (fun e => e.expires_at) = [some 100]) ∧
    ((CacheManager.set 3600 0
        (CacheManager.set 3600 0 [] "t" (Value.str "a") (some 100) []).2
        "t" (Value.str "b") (some 1) []).2.map (fun e => e.expires_at) = [some 1]) ∧
    ¬ ((100 : Int) ≤ 1) := by
  decide

/-- C4 (amended): a fresh `set` always resets `expires_at = now + effective
ttl`, which is monotone non-decreasing across overwrites **provided** the
writes happen at non-decreasing times with non-decreasing effective TTLs; a
second write with a smaller TTL can strictly decrease `expires_at`. -/
theorem set_expires_at_monotone (default_ttl : Int) (now now' : Time)
    (store : List CacheEntry) (ct : String) (data data' : Value)
    (ttl ttl' : Option Int) (params : List (String × Value))
    (ht : now ≤ now')
    (htt : pyOrTtl ttl default_ttl ≤ pyOrTtl ttl' default_ttl) :
    (findByKey (CacheManager.set default_ttl now store ct data ttl params).2
        (generate_cache_key ct params)).map (fun e => e.expires_at)
      = some (some (now + pyOrTtl ttl default_ttl)) ∧
    (findByKey (CacheManager.set default_ttl now'
          (CacheManager.set default_ttl now store ct data ttl params).2
          ct data' ttl' params).2
        (generate_cache_key ct params)).map (fun e => e.expires_at)
      = some (some (now' + pyOrTtl ttl' default_ttl)) ∧
    now + pyOrTtl ttl default_ttl ≤ now' + pyOrTtl ttl' default_ttl :=
  ⟨findByKey_set_expires default_ttl now store ct data ttl params,
    findByKey_set_expires default_ttl now' _ ct data' ttl' params,
    add_le_add ht htt⟩

/-- Witness for the amended C4: same key overwritten later with a larger TTL. -/
theorem set_expires_at_monotone_witness :
    ((0 : Int) ≤ 5 ∧ pyOrTtl (some 10) 3600 ≤ pyOrTtl (some 20) 3600) ∧
    ((findByKey (CacheManager.set 3600 0 [] "t" (Value.str "a") (some 10) []).2
        (generate_cache_key "t" [])).map (fun e => e.expires_at)
      = some (some (0 + pyOrTtl (some 10) 3600)) ∧
    (findByKey (CacheManager.set 3600 5
          (CacheManager.set 3600 0 [] "t" (Value.str "a") (some 10) []).2
          "t" (Value.str "b") (some 20) []).2
        (generate_cache_key "t" [])).map (fun e => e.expires_at)
      = some (some (5 + pyOrTtl (some 20) 3600)) ∧
    (0 : Int) + pyOrTtl (some 10) 3600 ≤ 5 + pyOrTtl (some 20) 3600) :=
  ⟨⟨by decide, by decide⟩,
    set_expires_at_monotone 3600 0 5 [] "t" (Value.str "a") (Value.str "b")
      (some 10) (some 20) [] (by decide) (by decide)⟩

/-! ## C6 — `get` on an expired entry deletes it and misses -/

/-- C6: when the entry under the derived key is expired at read time, `get`
returns a miss, the entry is deleted (no row under that key remains), every
surviving row is an unmodified row of the original store (so `access_count` /
`last_accessed` are untouched on this path), and a `get` for an absent key
leaves the store unchanged. -/
theorem get_expired_deletes (now : Time) (store : List CacheEntry) (ct : String)
    (params : List (String × Value)) (e : CacheEntry)
    (hfind : findByKey store (generate_cache_key ct params) = some e)
    (hexp : e.is_expired now = true)
    (store' : List CacheEntry)
    (hmiss : findByKey store' (generate_cache_key ct params) = none) :
    (CacheManager.get now store ct params).1 = none ∧
    findByKey (CacheManager.get now store ct params).2 (generate_cache_key ct params)
      = none ∧
    (CacheManager.get now store ct params).2 ⊆ store ∧
    CacheManager.get now store' ct params = (none, store') := by
  have hg : CacheManager.get now store ct params
      = (none, store.filter (fun x => !(x.cache_key == generate_cache_key ct params))) := by
    simp only [CacheManager.get, hfind, hexp, if_true]
  refine ⟨by rw [hg], ?_, ?_, ?_⟩
  · rw [hg]
    unfold findByKey
    apply List.find?_eq_none.mpr
    intro x hx
    simpa using (List.mem_filter.mp hx).2
  · rw [hg]
    intro x hx
    exact (List.mem_filter.mp hx).1
  · simp only [CacheManager.get, hmiss]

/-- A concrete expired cache entry (written at 0 with TTL 10, read at 11). -/
def expiredEntry : CacheEntry :=
  { cache_key := generate_cache_key "market_data" [], cache_type := "market_data",
    data := Value.str "stale", ttl_seconds := some 10, access_count := 3,
    last_accessed := some 0, expires_at := some 10, created_at := 0 }

/-- Witness for C6 on a one-entry store read past its expiry. -/
theorem get_expired_deletes_witness :
    (findByKey [expiredEntry] (generate_cache_key "market_data" []) = some expiredEntry ∧
     expiredEntry.is_expired 11 = true ∧
     findByKey [] (generate_cache_key "market_data" []) = none) ∧
    ((CacheManager.get 11 [expiredEntry] "market_data" []).1 = none ∧
     findByKey (CacheManager.get 11 [expiredEntry] "market_data" []).2
        (generate_cache_key "market_data" []) = none ∧
     (CacheManager.get 11 [expiredEntry] "market_data" []).2 ⊆ [expiredEntry] ∧
     CacheManager.get 11 ([] : List CacheEntry) "market_data" [] = (none, [])) :=
  ⟨⟨by decide, by decide, rfl⟩,
    get_expired_deletes 11 [expiredEntry] "market_data" [] expiredEntry
      (by decide) (by decide) [] rfl⟩

/-! ## C10 — entries with no expiry are immortal -/

/-- C10: an entry whose `expires_at` is `NULL` is never expired: `is_expired`
is `False` at any time, `get` hits it and returns its payload, `cleanup_expired`
keeps it, and `get_cache_stats` counts it as not expired — hence active — for
its cache type. -/
theorem no_expiry_never_expires (now now₂ : Time) (e : CacheEntry)
    (he : e.expires_at = none) (store : List CacheEntry) (ct : String)
    (params : List (String × Value))
    (hfind : findByKey store (generate_cache_key ct params) = some e)
    (store₂ : List CacheEntry) (hmem : e ∈ store₂) (ct₂ : String)
    (hct : e.cache_type = ct₂) :
    e.is_expired now = false ∧
    (CacheManager.get now store ct params).1 = some e.data ∧
    e ∈ (cleanup_expired now₂ store₂).2 ∧
    stats_expired_count now₂ ct₂ (e :: store₂) = stats_expired_count now₂ ct₂ store₂ ∧
    stats_active_count now₂ ct₂ (e :: store₂) = stats_active_count now₂ ct₂ store₂ + 1 := by
  have hie : e.is_expired now = false := by unfold CacheEntry.is_expired; rw [he]
  have hep : expiredPred now₂ e = false := by unfold expiredPred; rw [he]
  have hbeq : (e.cache_type == ct₂) = true := by simp [hct]
  refine ⟨hie, ?_, ?_, ?_, ?_⟩
  · simp only [CacheManager.get, hfind, hie]
    simp
  · unfold cleanup_expired
    exact List.mem_filter.mpr ⟨hmem, by rw [hep]; rfl⟩
  · unfold stats_expired_count
    rw [List.filter_cons, if_pos hbeq, List.countP_cons, hep]
    simp
  · unfold stats_active_count stats_expired_count
    rw [List.filter_cons, if_pos hbeq, List.countP_cons, hep]
    have hle : (store₂.filter (fun x => x.cache_type == ct₂)).countP (expiredPred now₂)
        ≤ (store₂.filter (fun x => x.cache_type == ct₂)).length :=
      List.countP_le_length _
    simp only [List.length_cons, Bool.false_eq_true, if_false, Nat.add_zero]
    omega

/-- A concrete cache entry with no expiry set. -/
def immortalEntry : CacheEntry :=
  { cache_key := generate_cache_key "embedding" [], cache_type := "embedding",
    data := Value.str "vec", ttl_seconds := none, access_count := 0,
    last_accessed := none, expires_at := none, created_at := 0 }

/-- Witness for C10 at a far-future read time. -/
theorem no_expiry_never_expires_witness :
    (immortalEntry.expires_at = none ∧
     findByKey [immortalEntry] (generate_cache_key "embedding" []) = some immortalEntry ∧
     immortalEntry ∈ [immortalEntry] ∧ immortalEntry.cache_type = "embedding") ∧
    (immortalEntry.is_expired 1000000 = false ∧
     (CacheManager.get 1000000 [immortalEntry] "embedding" []).1 = some immortalEntry.data ∧
     immortalEntry ∈ (cleanup_expired 1000000 [immortalEntry]).2 ∧
     stats_expired_count 1000000 "embedding" (immortalEntry :: [immortalEntry])
        = stats_expired_count 1000000 "embedding" [immortalEntry] ∧
     stats_active_count 1000000 "embedding" (immortalEntry :: [immortalEntry])
        = stats_active_count 1000000 "embedding" [immortalEntry] + 1) :=
  ⟨⟨rfl, by decide, by decide, rfl⟩,
    no_expiry_never_expires 1000000 1000000 immortalEntry rfl [immortalEntry]
      "embedding" [] (by decide) [immortalEntry] (by decide) "embedding" rfl⟩

/-! ## C2 — session reads do not extend the session (corrected) -/

/-- C2 counterexample: with `session_ttl = 100`, a session created at time 0
is successfully read at time 60, yet its `expires_at` stays 100 instead of
being reset to 160; a second read at time 110 — only 50 seconds after the
previous successful read — already misses.  Reads do not implement sliding expiry. -/
theorem get_session_no_sliding_expiry_counterexample :
    ((SessionManager.get_session 60
        (SessionManager.create_session 100 0 [] "sid" none none) "sid").1.isSome = true) ∧
    ((findSession (SessionManager.get_session 60
        (SessionManager.create_session 100 0 [] "sid" none none) "sid").2 "sid").map
        (fun s => s.expires_at) = some (some 100)) ∧
    (some (some (100 : Time)) ≠ some (some (160 : Time))) ∧
    ((SessionManager.get_session 110
        (SessionManager.get_session 60
          (SessionManager.create_session 100 0 [] "sid" none none) "sid").2 "sid").1
      = none) := by
  decide

/-- C2 (amended): a successful `get_session` returns the session and refreshes
only `last_activity`; `expires_at` is left exactly as it was (it is reset to
`now + session_ttl` only by `create_session`), so a session expires
`session_ttl` after its last `create_session` regardless of reads. -/
theorem get_session_preserves_expires_at (now : Time) (store : List UserSession)
    (sid : String) (s : UserSession)
    (hfind : findSession store sid = some s)
    (hlive : sessionExpired now s = false) :
    (SessionManager.get_session now store sid).1
      = some { s with last_activity := some now } ∧
    (findSession (SessionManager.get_session now store sid).2 sid).map
        (fun x => x.expires_at) = some s.expires_at := by
  have hg : SessionManager.get_session now store sid
      = (some { s with last_activity := some now },
         store.map (fun x =>
           if x.session_id == sid then { x with last_activity := some now } else x)) := by
    simp only [SessionManager.get_session, hfind, hlive]
    simp
  unfold findSession at hfind
  refine ⟨by rw [hg], ?_⟩
  rw [hg]
  unfold findSession
  rw [find_map_invariant (fun x => x.session_id == sid) _
        (fun x => by by_cases hx : x.session_id == sid <;> simp [hx]) store, hfind]
  have hk := List.find?_some hfind
  have hk2 : s.session_id = sid := by simpa using hk
  simp [hk2]

/-- A concrete live session (created at 0 with TTL 100, read at 60). -/
def liveSession : UserSession :=
  { session_id := "sid", user_agent := none, ip_address := none, total_analyses := 2,
    last_activity := some 5, created_at := 0, expires_at := some 100 }

/-- Witness for the amended C2. -/
theorem get_session_preserves_expires_at_witness :
    (findSession [liveSession] "sid" = some liveSession ∧
     sessionExpired 60 liveSession = false) ∧
    ((SessionManager.get_session 60 [liveSession] "sid").1
        = some { liveSession with last_activity := some 60 } ∧
     (findSession (SessionManager.get_session 60 [liveSession] "sid").2 "sid").map
        (fun x => x.expires_at) = some liveSession.expires_at) :=
  ⟨⟨by decide, by decide⟩,
    get_session_preserves_expires_at 60 [liveSession] "sid" liveSession
      (by decide) (by decide)⟩

/-! ## C7 — similarity results exclude the target and other-model candidates -/

/-- C7: every element of a `find_similar_fiis` result list has an
`analysis_id` different from the target's id, and — when analysis ids are
unique, as the primary key guarantees — different from the id of any analysis
whose `embedding_model` is not the engine's current model name, regardless of
the similarity function. -/
theorem similarity_model_isolation (sim : List ℚ → List ℚ → ℚ) (model_name : String)
    (analyses : List FIIAnalysis) (target_id : Int) (limit : Nat) (min_similarity : ℚ)
    (hids : (analyses.map (fun a => a.id)).Nodup)
    (c : FIIAnalysis) (hc : c ∈ analyses) (hm : c.embedding_model ≠ some model_name)
    (r : SimilarFII)
    (hr : r ∈ find_similar_fiis sim model_name analyses target_id limit min_similarity) :
    r.analysis_id ≠ target_id ∧ r.analysis_id ≠ c.id := by
  cases hf : analyses.find? (fun a => a.id == target_id) with
  | none => simp [find_similar_fiis, hf] at hr
  | some target =>
      cases hv : target.embedding_vector with
      | none => simp [find_similar_fiis, hf, hv] at hr
      | some tv =>
          simp only [find_similar_fiis, hf, hv] at hr
          have h1 := (List.take_sublist limit _).subset hr
          have h2 := (List.perm_insertionSort descSim _).subset h1
          have h3 := (List.mem_filter.mp h2).1
          obtain ⟨a, ha, hfa⟩ := List.mem_filterMap.mp h3
          obtain ⟨v, hv2, hmk⟩ := Option.map_eq_some'.mp hfa
          have hid : r.analysis_id = a.id := by rw [← hmk]
          have ha2 := List.mem_filter.mp ha
          have hcond := ha2.2
          simp only [Bool.and_eq_true, bne_iff_ne, beq_iff_eq] at hcond
          obtain ⟨⟨hne, _⟩, hmod⟩ := hcond
          refine ⟨by rw [hid]; exact hne, ?_⟩
          intro hrc
          have hidc : a.id = c.id := by rw [← hid, hrc]
          have hac : a = c := List.inj_on_of_nodup_map hids ha2.1 hc hidc
          exact hm (hac ▸ hmod)

/-- A concrete target analysis embedded with model "m". -/
def simTarget : FIIAnalysis :=
  { id := 1, session_id := "s", fii_code := "TGT11", fii_name := none,
    financial_metrics := none, market_data := none, risk_rating := none,
    investment_recommendation := none, embedding_vector := some [1, 0],
    embedding_model := some "m" }

/-- A candidate embedded with a different model ("other"): never returned. -/
def simForeignModel : FIIAnalysis :=
  { id := 2, session_id := "s", fii_code := "FOR11", fii_name := none,
    financial_metrics := none, market_data := none, risk_rating := none,
    investment_recommendation := none, embedding_vector := some [1, 0],
    embedding_model := some "other" }

/-- A candidate embedded with the current model ("m"): eligible. -/
def simSameModel : FIIAnalysis :=
  { id := 3, session_id := "s", fii_code := "SIM11", fii_name := none,
    financial_metrics := none, market_data := none, risk_rating := none,
    investment_recommendation := none, embedding_vector := some [1, 0],
    embedding_model := some "m" }

/-- A constant similarity function (vector closeness is irrelevant to C7). -/
def constSim : List ℚ → List ℚ → ℚ := fun _ _ => 1

/-- The one result the concrete scenario produces. -/
def simHit : SimilarFII := { analysis_id := 3, fii_code := "SIM11", similarity_score := 1 }

/-- Witness for C7: the same-model candidate is returned, and it is neither
the target nor the foreign-model candidate. -/
theorem similarity_model_isolation_witness :
    (([simTarget, simForeignModel, simSameModel].map (fun a => a.id)).Nodup ∧
     simForeignModel ∈ [simTarget, simForeignModel, simSameModel] ∧
     simForeignModel.embedding_model ≠ some "m" ∧
     simHit ∈ find_similar_fiis constSim "m"
        [simTarget, simForeignModel, simSameModel] 1 10 0) ∧
    (simHit.analysis_id ≠ 1 ∧ simHit.analysis_id ≠ simForeignModel.id) :=
  ⟨⟨by decide, by decide, by decide, by with_unfolding_all decide⟩,
    similarity_model_isolation constSim "m" [simTarget, simForeignModel, simSameModel]
      1 10 0 (by decide) simForeignModel (by decide) (by decide) simHit
      (by with_unfolding_all decide)⟩

/-! ## C9 — null / "N/A" metrics are never scored as 0 -/

/-- C9: `_extract_numeric_value` maps `None` (JSON null) and `"N/A"` to `None`;
a record whose dividend yield extraction fails contributes neither score nor
weight to the comprehensive dividend-yield component and never appears in the
`rank_by_dividend_yield` output (ids unique); likewise a record whose P/VP
extraction fails contributes nothing to the P/VP component. -/
theorem missing_value_not_scored (a b : FIIAnalysis)
    (ha : getDividendYield a = none) (hb : getPvp b = none)
    (sid : String) (analyses : List FIIAnalysis) (limit : Nat)
    (hids : (analyses.map (fun x => x.id)).Nodup) (hmem : a ∈ analyses)
    (e : RankEntry) (he : e ∈ rank_by_dividend_yield sid analyses limit) :
    extract_numeric_value (some Value.null) = none ∧
    extract_numeric_value (some (Value.str "N/A")) = none ∧
    dyComponent a = (0, 0) ∧
    pvpComponent b = (0, 0) ∧
    e.analysis_id ≠ a.id := by
  refine ⟨rfl, by decide, by simp only [dyComponent, ha], by simp only [pvpComponent, hb], ?_⟩
  simp only [rank_by_dividend_yield] at he
  obtain ⟨p, hp, hpe⟩ := List.mem_map.mp he
  have hsnd : p.2 ∈ (List.insertionSort descScore
      ((analyses.filter (fun x => x.session_id == sid)).filterMap
        (fun x => (getDividendYield x).map (fun dy => (x, dy))))).take limit := by
    have hmm := List.mem_map_of_mem Prod.snd hp
    rwa [List.enum_map_snd] at hmm
  have h1 := (List.take_sublist limit _).subset hsnd
  have h2 := (List.perm_insertionSort descScore _).subset h1
  obtain ⟨x, hx, hfx⟩ := List.mem_filterMap.mp h2
  obtain ⟨dy, hdy, hxy⟩ := Option.map_eq_some'.mp hfx
  have hex : e.analysis_id = p.2.1.id := by rw [← hpe]
  have hx1 : p.2.1 = x := by rw [← hxy]
  intro hcontra
  have hxa : x = a := by
    apply List.inj_on_of_nodup_map hids (List.mem_filter.mp hx).1 hmem
    rw [← hx1, ← hex, hcontra]
  rw [hxa] at hdy
  rw [ha] at hdy
  cases hdy

/-- A record whose only dividend-yield metric is JSON null. -/
def noDyAnalysis : FIIAnalysis :=
  { id := 10, session_id := "s", fii_code := "NODY11", fii_name := none,
    financial_metrics := some [("dividend_yield", Value.null)], market_data := none,
    risk_rating := none, investment_recommendation := none,
    embedding_vector := none, embedding_model := none }

/-- A record with a usable dividend yield of 8. -/
def dyAnalysis : FIIAnalysis :=
  { id := 11, session_id := "s", fii_code := "GOOD11", fii_name := none,
    financial_metrics := some [("dividend_yield", Value.num 8)], market_data := none,
    risk_rating := none, investment_recommendation := none,
    embedding_vector := none, embedding_model := none }

/-- A record whose only P/VP metric is the string "N/A". -/
def noPvpAnalysis : FIIAnalysis :=
  { id := 12, session_id := "s", fii_code := "NA11", fii_name := none,
    financial_metrics := some [("pvp_ratio", Value.str "N/A")], market_data := none,
    risk_rating := none, investment_recommendation := none,
    embedding_vector := none, embedding_model := none }

/-- The ranking entry produced for `dyAnalysis`. -/
def dyEntry : RankEntry :=
  { rank_position := 1, analysis_id := 11, fii_code := "GOOD11", score := 8 }

/-- Witness for C9 on a two-record session where one record's dividend yield
is null and one record's P/VP is "N/A". -/
theorem missing_value_not_scored_witness :
    (getDividendYield noDyAnalysis = none ∧ getPvp noPvpAnalysis = none ∧
     (([noDyAnalysis, dyAnalysis].map (fun x => x.id)).Nodup) ∧
     noDyAnalysis ∈ [noDyAnalysis, dyAnalysis] ∧
     dyEntry ∈ rank_by_dividend_yield "s" [noDyAnalysis, dyAnalysis] 20) ∧
    (extract_numeric_value (some Value.null) = none ∧
     extract_numeric_value (some (Value.str "N/A")) = none ∧
     dyComponent noDyAnalysis = (0, 0) ∧
     pvpComponent noPvpAnalysis = (0, 0) ∧
     dyEntry.analysis_id ≠ noDyAnalysis.id) :=
  ⟨⟨by decide, by decide, by decide, by decide, by with_unfolding_all decide⟩,
    missing_value_not_scored noDyAnalysis noPvpAnalysis (by decide) (by decide)
      "s" [noDyAnalysis, dyAnalysis] 20 (by decide) (by decide) dyEntry
      (by with_unfolding_all decide)⟩

/-! ## C8 — ranking recompute: replace vs. skip-on-empty (corrected) -/

/-- After `save_ranking`, the rows of the saved `(session_id, ranking_type)`
group are exactly the new entries. -/
theorem save_ranking_group_rows (sid rtype : String) (rankings : List RankEntry)
    (store : List FIIRankingRow) :
    (save_ranking sid rtype rankings store).filter (inGroup sid rtype)
      = rankings.map (toRankingRow sid rtype) := by
  unfold save_ranking
  rw [List.filter_append]
  have h1 : (store.filter (fun r => !inGroup sid rtype r)).filter (inGroup sid rtype)
      = [] := by
    rw [List.filter_eq_nil_iff]
    intro x hx
    have hx2 := (List.mem_filter.mp hx).2
    simp only [Bool.not_eq_true'] at hx2
    simp [hx2]
  have h2 : (rankings.map (toRankingRow sid rtype)).filter (inGroup sid rtype)
      = rankings.map (toRankingRow sid rtype) := by
    rw [List.filter_eq_self]
    intro x hx
    obtain ⟨e, _, rfl⟩ := List.mem_map.mp hx
    simp [inGroup, toRankingRow]
  rw [h1, h2, List.nil_append]

/-- A `save_ranking` does not touch the rows outside the saved group. -/
theorem save_ranking_other_rows (sid rtype : String) (rankings : List RankEntry)
    (store : List FIIRankingRow) :
    (save_ranking sid rtype rankings store).filter (fun r => !inGroup sid rtype r)
      = store.filter (fun r => !inGroup sid rtype r) := by
  unfold save_ranking
  rw [List.filter_append]
  have h1 : (store.filter (fun r => !inGroup sid rtype r)).filter
      (fun r => !inGroup sid rtype r) = store.filter (fun r => !inGroup sid rtype r) := by
    rw [List.filter_eq_self]
    intro x hx
    exact (List.mem_filter.mp hx).2
  have h2 : (rankings.map (toRankingRow sid rtype)).filter
      (fun r => !inGroup sid rtype r) = [] := by
    rw [List.filter_eq_nil_iff]
    intro x hx
    obtain ⟨e, _, rfl⟩ := List.mem_map.mp hx
    simp [inGroup, toRankingRow]
  rw [h1, h2, List.append_nil]

/-- C8 (amended): `save_ranking` itself always fully replaces the group — the
stored group rows become exactly the new entries (even when empty) and other
groups are untouched; and the `pvp_ratio` step of `generate_all_rankings`
installs exactly the recomputed entries **when that recomputed list is
non-empty** (when it is empty, the step skips `save_ranking`; see the
counterexample). -/
theorem ranking_replace_semantics (sid rtype : String) (rankings : List RankEntry)
    (store : List FIIRankingRow) (analyses : List FIIAnalysis)
    (hne : rank_by_pvp_ratio sid analyses 20 ≠ []) :
    (save_ranking sid rtype rankings store).filter (inGroup sid rtype)
      = rankings.map (toRankingRow sid rtype) ∧
    (save_ranking sid rtype rankings store).filter (fun r => !inGroup sid rtype r)
      = store.filter (fun r => !inGroup sid rtype r) ∧
    (generate_pvp_ranking_step sid analyses store).filter (inGroup sid "pvp_ratio")
      = (rank_by_pvp_ratio sid analyses 20).map (toRankingRow sid "pvp_ratio") := by
  refine ⟨save_ranking_group_rows sid rtype rankings store,
    save_ranking_other_rows sid rtype rankings store, ?_⟩
  unfold generate_pvp_ranking_step
  rw [if_neg (by simpa [List.isEmpty_iff] using hne)]
  exact save_ranking_group_rows sid "pvp_ratio" _ store

/-- A stale stored ranking row for analysis 7 of session "s". -/
def staleRow : FIIRankingRow :=
  { session_id := "s", ranking_type := "pvp_ratio", rank_position := 1,
    score := 1, analysis_id := 7 }

/-- Analysis 7 as it looks after the recompute: its P/VP is now null, so it no
longer qualifies for the `pvp_ratio` ranking. -/
def droppedAnalysis : FIIAnalysis :=
  { id := 7, session_id := "s", fii_code := "DROP11", fii_name := none,
    financial_metrics := some [("pvp_ratio", Value.null)], market_data := none,
    risk_rating := none, investment_recommendation := none,
    embedding_vector := none, embedding_model := none }

/-- C8 counterexample: when the recomputed qualifying set is empty, the
`pvp_ratio` block of `generate_all_rankings` skips `save_ranking`
(`if pvp_rankings:`), so the stale row for the no-longer-qualifying record
survives the recompute. -/
theorem ranking_recompute_empty_keeps_stale_counterexample :
    rank_by_pvp_ratio "s" [droppedAnalysis] 20 = [] ∧
    generate_pvp_ranking_step "s" [droppedAnalysis] [staleRow] = [staleRow] ∧
    staleRow.analysis_id = droppedAnalysis.id := by
  decide

/-- Analysis 7 with a qualifying P/VP of 1. -/
def qualifyingAnalysis : FIIAnalysis :=
  { id := 7, session_id := "s", fii_code := "Q11", fii_name := none,
    financial_metrics := some [("pvp_ratio", Value.num 1)], market_data := none,
    risk_rating := none, investment_recommendation := none,
    embedding_vector := none, embedding_model := none }

/-- Witness for the amended C8: one qualifying record, and a `save_ranking`
with an empty entry list clears the stored group completely. -/
theorem ranking_replace_semantics_witness :
    (rank_by_pvp_ratio "s" [qualifyingAnalysis] 20 ≠ []) ∧
    ((save_ranking "s" "pvp_ratio" [] [staleRow]).filter (inGroup "s" "pvp_ratio")
        = ([] : List RankEntry).map (toRankingRow "s" "pvp_ratio") ∧
     (save_ranking "s" "pvp_ratio" [] [staleRow]).filter
        (fun r => !inGroup "s" "pvp_ratio" r)
        = [staleRow].filter (fun r => !inGroup "s" "pvp_ratio" r) ∧
     (generate_pvp_ranking_step "s" [qualifyingAnalysis] [staleRow]).filter
        (inGroup "s" "pvp_ratio")
        = (rank_by_pvp_ratio "s" [qualifyingAnalysis] 20).map
            (toRankingRow "s" "pvp_ratio")) :=
  ⟨by with_unfolding_all decide,
    ranking_replace_semantics "s" "pvp_ratio" [] [staleRow] [qualifyingAnalysis]
      (by with_unfolding_all decide)⟩

/-! ## C1 — comprehensive score bounds (corrected) -/

/-- The P/VP side condition under which the claimed `≤ 1` bound actually
holds: when the P/VP component is used (extracted and positive), the value is
at least 0.5.  The code's `max(0, (2 - pvp)/1.5)` has no upper clamp, so
smaller P/VP values push the component above 1. -/
def pvpSafe (a : FIIAnalysis) : Bool :=
  match getPvp a with
  | none => true
  | some p => decide (p ≤ 0) || decide (1/2 ≤ p)

theorem dyComponent_bounds (a : FIIAnalysis) :
    0 ≤ (dyComponent a).1 ∧ (dyComponent a).1 ≤ (dyComponent a).2 ∧
      0 ≤ (dyComponent a).2 := by
  cases hdy : getDividendYield a with
  | none => simp [dyComponent, hdy]
  | some dy =>
      by_cases h : 0 < dy
      · simp only [dyComponent, hdy, if_pos h]
        have h0 : (0 : ℝ) ≤ (dy : ℝ) := by exact_mod_cast h.le
        refine ⟨mul_nonneg (le_min (div_nonneg h0 (by norm_num)) (by norm_num))
          (by norm_num), ?_, by norm_num⟩
        calc min ((dy : ℝ) / 15) 1 * 0.3 ≤ 1 * 0.3 :=
              mul_le_mul_of_nonneg_right (min_le_right _ _) (by norm_num)
          _ = 0.3 := by norm_num
      · simp only [dyComponent, hdy, if_neg h]
        norm_num

theorem pvpComponent_bounds (a : FIIAnalysis) (hsafe : pvpSafe a = true) :
    0 ≤ (pvpComponent a).1 ∧ (pvpComponent a).1 ≤ (pvpComponent a).2 ∧
      0 ≤ (pvpComponent a).2 := by
  cases hp : getPvp a with
  | none => simp [pvpComponent, hp]
  | some p =>
      by_cases h : 0 < p
      · simp only [pvpSafe, hp, Bool.or_eq_true, decide_eq_true_eq] at hsafe
        rcases hsafe with h0 | hhalf
        · exact absurd h (not_lt.mpr h0)
        · simp only [pvpComponent, hp, if_pos h]
          have hp2 : (1/2 : ℝ) ≤ (p : ℝ) := by
            have hc : ((1/2 : ℚ) : ℝ) ≤ ((p : ℚ) : ℝ) := Rat.cast_le.mpr hhalf
            push_cast at hc
            linarith
          refine ⟨mul_nonneg (le_max_left _ _) (by norm_num), ?_, by norm_num⟩
          have hle1 : max 0 ((2 - (p : ℝ)) / 1.5) ≤ 1 := by
            apply max_le (by norm_num)
            rw [div_le_one (by norm_num : (0 : ℝ) < 1.5)]
            linarith
          calc max 0 ((2 - (p : ℝ)) / 1.5) * 0.25 ≤ 1 * 0.25 :=
                mul_le_mul_of_nonneg_right hle1 (by norm_num)
            _ = 0.25 := by norm_num
      · simp only [pvpComponent, hp, if_neg h]
        norm_num

theorem liquidityComponent_bounds (a : FIIAnalysis) :
    0 ≤ (liquidityComponent a).1 ∧ (liquidityComponent a).1 ≤ (liquidityComponent a).2 ∧
      0 ≤ (liquidityComponent a).2 := by
  cases hl : getLiquidity a with
  | none => simp [liquidityComponent, hl]
  | some l =>
      by_cases h : 0 < l
      · simp only [liquidityComponent, hl, if_pos h]
        have h0 : (0 : ℝ) < (l : ℝ) := by exact_mod_cast h
        have hlog : 0 ≤ Real.logb 10 ((l : ℝ) + 1) :=
          Real.logb_nonneg (by norm_num) (by linarith)
        refine ⟨mul_nonneg (le_min (div_nonneg hlog (by norm_num)) (by norm_num))
          (by norm_num), ?_, by norm_num⟩
        calc min (Real.logb 10 ((l : ℝ) + 1) / 6) 1 * 0.2 ≤ 1 * 0.2 :=
              mul_le_mul_of_nonneg_right (min_le_right _ _) (by norm_num)
          _ = 0.2 := by norm_num
      · simp only [liquidityComponent, hl, if_neg h]
        norm_num

theorem riskComponent_bounds (a : FIIAnalysis) :
    0 ≤ (riskComponent a).1 ∧ (riskComponent a).1 ≤ (riskComponent a).2 ∧
      0 ≤ (riskComponent a).2 := by
  cases hr : a.risk_rating with
  | none => simp [riskComponent, hr]
  | some str =>
      by_cases h : str ≠ ""
      · simp only [riskComponent, hr, if_pos h]
        unfold risk_scores
        split_ifs <;> norm_num
      · simp only [riskComponent, hr, if_neg h]
        norm_num

theorem recComponent_bounds (a : FIIAnalysis) :
    0 ≤ (recComponent a).1 ∧ (recComponent a).1 ≤ (recComponent a).2 ∧
      0 ≤ (recComponent a).2 := by
  cases hr : a.investment_recommendation with
  | none => simp [recComponent, hr]
  | some str =>
      by_cases h : str ≠ ""
      · simp only [recComponent, hr, if_pos h]
        unfold rec_scores
        split_ifs <;> norm_num
      · simp only [recComponent, hr, if_neg h]
        norm_num

/-- C1 (amended): whenever the comprehensive score is defined (at least one
usable component), it is non-negative, and it is at most 1 **provided** the
P/VP component, when used, has `pvp ≥ 0.5`.  The P/VP contribution is
`max(0, (2 - pvp)/1.5)` with no upper clamp, so a P/VP below 0.5 pushes the
score above 1 (see the counterexample). -/
theorem comprehensive_score_bounds (a : FIIAnalysis) (s : ℝ)
    (hsafe : pvpSafe a = true) (hs : comprehensiveScore a = some s) :
    0 ≤ s ∧ s ≤ 1 := by
  unfold comprehensiveScore at hs
  by_cases hw : 0 < weight_sum a
  · rw [if_pos hw] at hs
    injection hs with hs
    obtain ⟨h1a, h1b, h1c⟩ := dyComponent_bounds a
    obtain ⟨h2a, h2b, h2c⟩ := pvpComponent_bounds a hsafe
    obtain ⟨h3a, h3b, h3c⟩ := liquidityComponent_bounds a
    obtain ⟨h4a, h4b, h4c⟩ := riskComponent_bounds a
    obtain ⟨h5a, h5b, h5c⟩ := recComponent_bounds a
    subst hs
    constructor
    · apply div_nonneg _ hw.le
      unfold total_score
      linarith
    · rw [div_le_one hw]
      unfold total_score weight_sum
      linarith
  · rw [if_neg hw] at hs
    cases hs

/-- A record whose only usable component is a P/VP of 0.2. -/
def lowPvpAnalysis : FIIAnalysis :=
  { id := 20, session_id := "s", fii_code := "LOWP11", fii_name := none,
    financial_metrics := some [("pvp_ratio", Value.num (1/5))], market_data := none,
    risk_rating := none, investment_recommendation := none,
    embedding_vector := none, embedding_model := none }

/-- C1 counterexample: with P/VP = 0.2 as the only usable component the
comprehensive score is `max(0, (2 - 0.2)/1.5) = 1.2`, strictly above 1 — the
claimed clamp to `[0, 1]` does not exist in the code. -/
theorem comprehensive_score_above_one_counterexample :
    comprehensiveScore lowPvpAnalysis = some (6/5) ∧ ¬ ((6 : ℝ)/5 ≤ 1) := by
  have hdy : getDividendYield lowPvpAnalysis = none := by with_unfolding_all decide
  have hpvp : getPvp lowPvpAnalysis = some (1/5) := by with_unfolding_all decide
  have hliq : getLiquidity lowPvpAnalysis = none := by with_unfolding_all decide
  have hd : dyComponent lowPvpAnalysis = (0, 0) := by simp only [dyComponent, hdy]
  have hl : liquidityComponent lowPvpAnalysis = (0, 0) := by
    simp only [liquidityComponent, hliq]
  have hrisk : riskComponent lowPvpAnalysis = (0, 0) := rfl
  have hrec : recComponent lowPvpAnalysis = (0, 0) := rfl
  have hpv : pvpComponent lowPvpAnalysis
      = (max 0 ((2 - ((1/5 : ℚ) : ℝ)) / 1.5) * 0.25, 0.25) := by
    simp only [pvpComponent, hpvp]
    rw [if_pos (by norm_num : (0 : ℚ) < 1/5)]
  have hclean : max 0 ((2 - ((1/5 : ℚ) : ℝ)) / 1.5) * 0.25 = (3/10 : ℝ) := by
    have hc : ((1/5 : ℚ) : ℝ) = 1/5 := by norm_num
    rw [hc, max_eq_right (by norm_num)]
    norm_num
  have hts : total_score lowPvpAnalysis = 3/10 := by
    unfold total_score
    rw [hd, hpv, hl, hrisk, hrec]
    simpa using hclean
  have hws : weight_sum lowPvpAnalysis = 0.25 := by
    unfold weight_sum
    rw [hd, hpv, hl, hrisk, hrec]
    norm_num
  constructor
  · unfold comprehensiveScore
    rw [hws, hts, if_pos (by norm_num : (0 : ℝ) < 0.25)]
    congr 1
    norm_num
  · norm_num

/-- A record whose only usable component is a LOW risk rating. -/
def riskOnlyAnalysis : FIIAnalysis :=
  { id := 21, session_id := "s", fii_code := "RISK11", fii_name := none,
    financial_metrics := none, market_data := none, risk_rating := some "LOW",
    investment_recommendation := none, embedding_vector := none,
    embedding_model := none }

/-- The comprehensive score of `riskOnlyAnalysis` is exactly 1. -/
theorem riskOnly_score : comprehensiveScore riskOnlyAnalysis = some 1 := by
  have hd : dyComponent riskOnlyAnalysis = (0, 0) := rfl
  have hp : pvpComponent riskOnlyAnalysis = (0, 0) := rfl
  have hl : liquidityComponent riskOnlyAnalysis = (0, 0) := rfl
  have hrec : recComponent riskOnlyAnalysis = (0, 0) := rfl
  have hrisk : riskComponent riskOnlyAnalysis = ((1 : ℝ) * 0.15, 0.15) := by
    simp only [riskComponent, riskOnlyAnalysis]
    rw [if_pos (by decide : ("LOW" : String) ≠ "")]
    simp [risk_scores]
  have hts : total_score riskOnlyAnalysis = 0.15 := by
    unfold total_score
    rw [hd, hp, hl, hrisk, hrec]
    norm_num
  have hws : weight_sum riskOnlyAnalysis = 0.15 := by
    unfold weight_sum
    rw [hd, hp, hl, hrisk, hrec]
    norm_num
  unfold comprehensiveScore
  rw [hws, hts, if_pos (by norm_num : (0 : ℝ) < 0.15)]
  congr 1
  norm_num

/-- Witness for the amended C1 at a record scoring exactly 1. -/
theorem comprehensive_score_bounds_witness :
    (pvpSafe riskOnlyAnalysis = true ∧ comprehensiveScore riskOnlyAnalysis = some 1) ∧
    (0 ≤ (1 : ℝ) ∧ (1 : ℝ) ≤ 1) :=
  ⟨⟨rfl, riskOnly_score⟩, comprehensive_score_bounds riskOnlyAnalysis 1 rfl riskOnly_score⟩

end InvestmentAnalyzer
